import Mathlib

/-!
Shallow embedding of the frace function-race caller
(src/frace/models.py and src/frace/main.py).

Modelling choices:
* Python float timestamps and backoff values are modelled over an arbitrary
  linearly ordered ring; concrete witnesses instantiate it with the integers,
  where every claim-relevant quantity (the base backoff 1.0, its doublings,
  differences of timestamps) is exact.
* The pydantic field func of FunctionModel is an opaque callable capability,
  not data; invocations are modelled by an external oracle
  behavior : String -> InvokeResult keyed by the function id, which also
  absorbs args, kwargs and timeout expiry (a timeout raises TimeoutError and
  is handled identically to any other exception in _run_function).
* The mutable registry dict function_models is a list of records keyed by id;
  in-place mutation of a model object is replacement of the entry keyed by
  its id.
* asyncio scheduling is modelled by running each bucket chain to completion
  in bucket order and giving the dispatcher loop an explicit completion order
  (a list of chain indices) in which it inspects the finished tasks.
* The recursion of _run_function is given fuel bucket.length + 1; the theorem
  run_function_no_fuelOut proves the fuel branch unreachable.
-/

namespace Frace

/-- Translation of FunctionModel (models.py lines 7-35) without the opaque
func, args and kwargs fields. The pydantic defaults are failures = 0,
last_failure_time = None and backoff = 1.0. -/
structure FunctionModel (α : Type) where
  id : String
  failures : Nat
  last_failure_time : Option α
  backoff : α
deriving DecidableEq, Repr

/-- Translation of the mutable state of FunctionRaceCaller (main.py lines
18-25): the failure threshold and the registry of function models. -/
structure Caller (α : Type) where
  max_failures : Nat
  function_models : List (FunctionModel α)
deriving DecidableEq, Repr

variable {α : Type}

/-- Registry lookup self.function_models[fid]; none models the KeyError for
an unregistered id. -/
def findModel (c : Caller α) (fid : String) : Option (FunctionModel α) :=
  c.function_models.find? (fun m => m.id == fid)

/-- In-place mutation of the registry entry whose id matches m.id. -/
def updateModel (c : Caller α) (m : FunctionModel α) : Caller α :=
  { c with function_models :=
      c.function_models.map (fun x => if x.id == m.id then m else x) }

/-- Translation of FunctionRaceCaller._handle_failure (main.py lines
173-176): every failure increments the count, stamps the failure time and
doubles the backoff. -/
def handle_failure [LinearOrderedRing α] (m : FunctionModel α) (now : α) : FunctionModel α :=
  { m with
      failures := m.failures + 1
      last_failure_time := some now
      backoff := m.backoff * 2 }

/-- One registered model's update inside _resolve_failures (main.py lines
178-191): a model at or over the failure threshold whose backoff window has
strictly elapsed gets its failure count set back to max_failures - 1.
A model with failures at the threshold but no recorded failure time cannot
arise (failures only grows through _handle_failure, which records a time);
that branch is the identity here. -/
def resolve_model [LinearOrderedRing α] (maxF : Nat) (now : α) (m : FunctionModel α) : FunctionModel α :=
  if maxF ≤ m.failures then
    match m.last_failure_time with
    | none => m
    | some t => if m.backoff < now - t then { m with failures := maxF - 1 } else m
  else m

/-- Translation of FunctionRaceCaller._resolve_failures applied to the whole
registry with one reading of the clock. -/
def resolve_failures [LinearOrderedRing α] (now : α) (c : Caller α) : Caller α :=
  { c with function_models := c.function_models.map (resolve_model c.max_failures now) }

/-- Result of _select_function: a model, the None return when every candidate
is excluded or over the threshold, or a KeyError on an unregistered id. -/
inductive SelectResult (α : Type) where
  | selected (m : FunctionModel α)
  | exhausted
  | keyError (fid : String)
deriving DecidableEq, Repr

/-- Translation of FunctionRaceCaller._select_function (main.py lines
193-204): scan the bucket front to back, skip excluded ids, look the id up
in the registry (KeyError if absent), and return the first model with
failures < max_failures. -/
def select_function (c : Caller α) (excluded : List String) :
    List String → SelectResult α
  | [] => .exhausted
  | fid :: rest =>
    if fid ∈ excluded then select_function c excluded rest
    else
      match findModel c fid with
      | none => .keyError fid
      | some m =>
        if m.failures < c.max_failures then .selected m
        else select_function c excluded rest

/-- Outcome of awaiting one provider invocation: a result value, an exception
(timeout expiry included), or asyncio cancellation delivered at the await. -/
inductive InvokeResult where
  | ok (v : String)
  | err
  | cancelled
deriving DecidableEq, Repr

/-- Terminal state of one bucket chain (_run_function). keyErr is a KeyError
escaping from _select_function inside the task; fuelOut is the artificial
fuel-exhaustion branch, proved unreachable by run_function_no_fuelOut. -/
inductive ChainOutcome where
  | ok (v : String)
  | exhausted
  | keyErr (fid : String)
  | cancelled
  | fuelOut
deriving DecidableEq, Repr

/-- Translation of FunctionRaceCaller._run_function (main.py lines 124-155),
with the recursion bounded by fuel. Returns the registry after the run, the
ids whose invocation was started in order, and the terminal outcome. The
func_model argument (a live object in Python) is the registry entry keyed by
fid. On CancelledError the code re-raises at once; on any other exception it
runs _handle_failure, excludes the id and recurses on the next selection; on
success it resets failures to 0 and backoff to 1.0 and returns the result. -/
def run_function_fuel [LinearOrderedRing α] (behavior : String → InvokeResult) (now : α) :
    Nat → Caller α → List String → String → List String →
    Caller α × List String × ChainOutcome
  | 0, c, _, _, _ => (c, [], .fuelOut)
  | fuel + 1, c, bucket, fid, excluded =>
    match findModel c fid with
    | none => (c, [], .keyErr fid)
    | some m =>
      match behavior fid with
      | .cancelled => (c, [fid], .cancelled)
      | .ok v => (updateModel c { m with failures := 0, backoff := 1 }, [fid], .ok v)
      | .err =>
        let c2 := updateModel c (handle_failure m now)
        let excluded2 := excluded ++ [fid]
        match select_function c2 excluded2 bucket with
        | .keyError fid2 => (c2, [fid], .keyErr fid2)
        | .exhausted => (c2, [fid], .exhausted)
        | .selected m2 =>
          let r := run_function_fuel behavior now fuel c2 bucket m2.id excluded2
          (r.1, fid :: r.2.1, r.2.2)

/-- One bucket chain with enough fuel for its at most bucket.length distinct
attempts. -/
def run_function [LinearOrderedRing α] (behavior : String → InvokeResult) (now : α) (c : Caller α)
    (bucket : List String) (fid : String) (excluded : List String) :
    Caller α × List String × ChainOutcome :=
  run_function_fuel behavior now (bucket.length + 1) c bucket fid excluded

/-- The selection loop of call_functions (main.py lines 73-77): one selected
function per bucket, buckets whose selection returns None silently dropped;
a KeyError during selection aborts the whole call. -/
def select_all (c : Caller α) :
    List (List String) → Except String (List (String × List String))
  | [] => .ok []
  | bucket :: rest =>
    match select_function c ([] : List String) bucket with
    | .keyError fid => .error fid
    | .exhausted => select_all c rest
    | .selected m =>
      match select_all c rest with
      | .error fid => .error fid
      | .ok l => .ok ((m.id, bucket) :: l)

/-- Each selected bucket's chain run to its terminal state, threading the
shared registry through the chains. -/
def run_chains [LinearOrderedRing α] (behavior : String → InvokeResult) (now : α) :
    Caller α → List (String × List String) →
    Caller α × List (List String × ChainOutcome)
  | c, [] => (c, [])
  | c, sb :: rest =>
    let r := run_function behavior now c sb.2 sb.1 []
    let rr := run_chains behavior now r.1 rest
    (rr.1, (r.2.1, r.2.2) :: rr.2)

/-- What call_functions returns or raises. -/
inductive CallValue where
  | ok (v : String)
  | noFunctionSucceeded
  | keyError (fid : String)
  | cancelledError
deriving DecidableEq, Repr

/-- The dispatcher loop of call_functions (main.py lines 86-106): inspect the
finished tasks in completion order; the first successful result wins; a task
that raised an Exception (bucket exhaustion, or a KeyError inside the task)
is skipped; a CancelledError is not an Exception and escapes; if no task
succeeded the call raises FraceException with message No function succeeded. -/
def dispatch (outcomes : List ChainOutcome) : List Nat → CallValue
  | [] => .noFunctionSucceeded
  | i :: rest =>
    match outcomes[i]? with
    | some (.ok v) => .ok v
    | some .cancelled => .cancelledError
    | _ => dispatch outcomes rest

/-- Everything a call to call_functions leaves behind: the registry, each
chain's started invocations, each chain's terminal outcome, and the returned
or raised value. -/
structure CallResult (α : Type) where
  state : Caller α
  traces : List (List String)
  outcomes : List ChainOutcome
  result : CallValue
deriving DecidableEq, Repr

/-- Translation of FunctionRaceCaller.call_functions (main.py lines 39-106).
args, kwargs and timeout overrides only feed the opaque invocations and are
absorbed by the behavior oracle; completionOrder lists the chain indices in
the order in which the dispatcher sees the finished tasks. -/
def call_functions [LinearOrderedRing α] (behavior : String → InvokeResult) (now : α)
    (completionOrder : List Nat) (c : Caller α) (buckets : List (List String)) :
    CallResult α :=
  let c1 := resolve_failures now c
  match select_all c1 buckets with
  | .error fid => ⟨c1, [], [], .keyError fid⟩
  | .ok selected =>
    let r := run_chains behavior now c1 selected
    ⟨r.1, r.2.map (fun p => p.1), r.2.map (fun p => p.2),
      dispatch (r.2.map (fun p => p.2)) completionOrder⟩

/-- Translation of get_function_remaining_timeout_in_seconds (main.py lines
157-171): 0.0 below the threshold, otherwise backoff - (now -
last_failure_time) with no clamping; none models the KeyError for an
unregistered id (and the unreachable None-arithmetic TypeError, as in
resolve_model). -/
def get_function_remaining_timeout_in_seconds [LinearOrderedRing α] (c : Caller α) (now : α)
    (fid : String) : Option α :=
  match findModel c fid with
  | none => none
  | some m =>
    if c.max_failures ≤ m.failures then
      match m.last_failure_time with
      | none => none
      | some t => some (m.backoff - (now - t))
    else some 0

/-- Translation of get_ids_on_timeout (main.py lines 108-122); it first runs
_resolve_failures, so it returns the updated registry alongside the ids. -/
def get_ids_on_timeout [LinearOrderedRing α] (now : α) (c : Caller α) : Caller α × List String :=
  let c1 := resolve_failures now c
  (c1,
    (c1.function_models.filter (fun m => decide (c1.max_failures ≤ m.failures))).map
      (fun m => m.id))

/-- A model as registered with the pydantic defaults (models.py lines 19-25):
no failures yet, no failure time, backoff at the base value 1.0. -/
def freshModel [LinearOrderedRing α] (fid : String) : FunctionModel α :=
  ⟨fid, 0, none, 1⟩

/-- Two fresh providers A and B under the default threshold max_failures = 2. -/
def freshAB : Caller ℤ := ⟨2, [freshModel "A", freshModel "B"]⟩

/-- The registry of the slow-success scenario: a provider that always fails
at once and one that eventually succeeds. -/
def failRace : Caller ℤ := ⟨2, [freshModel "fail", freshModel "slow_success"]⟩

/-- One provider C that is Open (at the threshold) whose backoff window has
already elapsed at time 5. -/
def openC : Caller ℤ := ⟨2, [⟨"C", 2, some 0, 1⟩]⟩

/-- One provider A at the threshold whose backoff window has elapsed. -/
def openA : Caller ℤ := ⟨2, [⟨"A", 2, some 0, 1⟩]⟩

/-- The behavior of the slow-success scenario: fail raises at once, every
other provider returns the slow result after its delay. -/
def raceBehavior : String → InvokeResult :=
  fun fid => if fid == "fail" then .err else .ok "slow result"

/-- A successful registry lookup returns the model carrying the looked-up id. -/
theorem findModel_id {c : Caller α} {fid : String} {m : FunctionModel α}
    (h : findModel c fid = some m) : m.id = fid := by
  unfold findModel at h
  exact eq_of_beq (@List.find?_some (FunctionModel α) (fun x => x.id == fid) m
    c.function_models h)

/-- Lookup commutes with mapping an id-preserving function over the registry. -/
theorem find_map_id_pres (f : FunctionModel α → FunctionModel α)
    (hf : ∀ m, (f m).id = m.id) (fid : String) (l : List (FunctionModel α)) :
    (l.map f).find? (fun x => x.id == fid) = (l.find? (fun x => x.id == fid)).map f := by
  induction l with
  | nil => rfl
  | cons a t ih =>
    by_cases h : (a.id == fid) = true
    · have hfa : ((f a).id == fid) = true := by rw [hf a]; exact h
      rw [List.map_cons,
        @List.find?_cons_of_pos _ (fun x => x.id == fid) (f a) (t.map f) hfa,
        @List.find?_cons_of_pos _ (fun x => x.id == fid) a t h]
      rfl
    · have hfa : ¬ ((f a).id == fid) = true := by rw [hf a]; exact h
      rw [List.map_cons,
        @List.find?_cons_of_neg _ (fun x => x.id == fid) (f a) (t.map f) hfa,
        @List.find?_cons_of_neg _ (fun x => x.id == fid) a t h, ih]

/-- The in-place mutation step preserves each entry's id. -/
theorem update_id_pres (m2 x : FunctionModel α) :
    (if x.id == m2.id then m2 else x).id = x.id := by
  by_cases h : (x.id == m2.id) = true
  · rw [if_pos h]
    exact (eq_of_beq h).symm
  · rw [if_neg h]

/-- Lookup after an in-place mutation of one entry. -/
theorem findModel_updateModel (c : Caller α) (m2 : FunctionModel α) (fid : String) :
    findModel (updateModel c m2) fid =
      (findModel c fid).map (fun x => if x.id == m2.id then m2 else x) := by
  unfold findModel updateModel
  exact find_map_id_pres _ (update_id_pres m2) fid _

/-- Failure resolution preserves each entry's id. -/
theorem resolve_model_id [LinearOrderedRing α] (maxF : Nat) (now : α) (m : FunctionModel α) :
    (resolve_model maxF now m).id = m.id := by
  unfold resolve_model
  split
  · split
    · rfl
    · split <;> rfl
  · rfl

/-- Lookup after the failure-resolution pass over the registry. -/
theorem findModel_resolve [LinearOrderedRing α] (now : α) (c : Caller α) (fid : String) :
    findModel (resolve_failures now c) fid =
      (findModel c fid).map (resolve_model c.max_failures now) := by
  unfold findModel resolve_failures
  exact find_map_id_pres _ (resolve_model_id _ _) fid _

/-- What a successful selection guarantees: the model is registered under an
id of the bucket that is not excluded, and it is under the threshold. -/
theorem select_function_selected {c : Caller α} {excluded : List String}
    {bucket : List String} {m : FunctionModel α}
    (h : select_function c excluded bucket = .selected m) :
    m.id ∈ bucket ∧ m.id ∉ excluded ∧ findModel c m.id = some m ∧
      m.failures < c.max_failures := by
  induction bucket with
  | nil => simp [select_function] at h
  | cons fid rest ih =>
    simp only [select_function] at h
    split at h
    · have hr := ih h
      exact ⟨List.mem_cons_of_mem _ hr.1, hr.2⟩
    · rename_i hex
      split at h
      · exact SelectResult.noConfusion h
      · rename_i m0 hfm
        split at h
        · rename_i hlt
          injection h with hm
          subst hm
          have hid : m0.id = fid := findModel_id hfm
          rw [hid]
          exact ⟨List.mem_cons_self _ _, hex, hid ▸ hfm, hlt⟩
        · rename_i hlt
          have hr := ih h
          exact ⟨List.mem_cons_of_mem _ hr.1, hr.2⟩

/-- Length of a filter only drops when the predicate weakens pointwise. -/
theorem length_filter_mono {β : Type} (p q : β → Bool)
    (hpq : ∀ x, q x = true → p x = true) (l : List β) :
    (l.filter q).length ≤ (l.filter p).length := by
  induction l with
  | nil => exact Nat.le_refl 0
  | cons a t ih =>
    by_cases hq : q a = true
    · rw [List.filter_cons_of_pos hq, List.filter_cons_of_pos (hpq a hq)]
      exact Nat.succ_le_succ ih
    · rw [List.filter_cons_of_neg (by simpa using hq)]
      by_cases hp : p a = true
      · rw [List.filter_cons_of_pos hp]
        exact Nat.le_succ_of_le ih
      · rw [List.filter_cons_of_neg (by simpa using hp)]
        exact ih

/-- The filter length drops strictly once one retained element is dropped. -/
theorem length_filter_strict {β : Type} (p q : β → Bool)
    (hpq : ∀ x, q x = true → p x = true) (a : β) (l : List β)
    (ha : a ∈ l) (hpa : p a = true) (hqa : q a = false) :
    (l.filter q).length < (l.filter p).length := by
  induction l with
  | nil => cases ha
  | cons b t ih =>
    rcases List.mem_cons.mp ha with hb | ht
    · rw [← hb] at *
      rw [List.filter_cons_of_pos hpa, List.filter_cons_of_neg (by simp [hqa])]
      exact Nat.lt_succ_of_le (length_filter_mono p q hpq t)
    · by_cases hp : p b = true
      · rw [List.filter_cons_of_pos hp]
        by_cases hq : q b = true
        · rw [List.filter_cons_of_pos hq]
          exact Nat.succ_lt_succ (ih ht)
        · rw [List.filter_cons_of_neg (by simpa using hq)]
          exact Nat.lt_succ_of_lt (ih ht)
      · have hq : ¬ q b = true := fun hqb => hp (hpq b hqb)
        rw [List.filter_cons_of_neg (by simpa using hq),
          List.filter_cons_of_neg (by simpa using hp)]
        exact ih ht

/-- The fuel bound suffices: the fuel-out branch is never taken while the
fuel exceeds the number of still-selectable ids of the bucket. -/
theorem run_function_fuel_enough [LinearOrderedRing α] (behavior : String → InvokeResult)
    (now : α) :
    ∀ (fuel : Nat) (c : Caller α) (bucket : List String) (fid : String)
      (excluded : List String),
      (bucket.filter (fun x => decide (x ∉ fid :: excluded))).length < fuel →
      (run_function_fuel behavior now fuel c bucket fid excluded).2.2 ≠ .fuelOut := by
  intro fuel
  induction fuel with
  | zero =>
    intro c bucket fid excluded h
    exact absurd h (Nat.not_lt_zero _)
  | succ n ih =>
    intro c bucket fid excluded hlt
    cases hfm : findModel c fid with
    | none => simp [run_function_fuel, hfm]
    | some m =>
      cases hbeq : behavior fid with
      | cancelled => simp [run_function_fuel, hfm, hbeq]
      | ok v => simp [run_function_fuel, hfm, hbeq]
      | err =>
        cases hsel : select_function (updateModel c (handle_failure m now))
            (excluded ++ [fid]) bucket with
        | keyError f => simp [run_function_fuel, hfm, hbeq, hsel]
        | exhausted => simp [run_function_fuel, hfm, hbeq, hsel]
        | selected m2 =>
          simp only [run_function_fuel, hfm, hbeq, hsel]
          have hm2 := select_function_selected hsel
          have hnotex : m2.id ∉ excluded ++ [fid] := hm2.2.1
          have hne : m2.id ≠ fid := by
            intro he
            exact hnotex (List.mem_append.mpr (Or.inr (List.mem_singleton.mpr he)))
          have hnex : m2.id ∉ excluded :=
            fun he => hnotex (List.mem_append.mpr (Or.inl he))
          have hstrict :
              (bucket.filter (fun x => decide (x ∉ m2.id :: (excluded ++ [fid])))).length <
                (bucket.filter (fun x => decide (x ∉ fid :: excluded))).length := by
            refine length_filter_strict _ _ ?_ m2.id bucket hm2.1 ?_ ?_
            · intro x hx
              rw [decide_eq_true_eq] at hx ⊢
              intro hmem
              rcases List.mem_cons.mp hmem with h1 | h2
              · exact hx (List.mem_cons_of_mem _
                  (List.mem_append.mpr (Or.inr (List.mem_singleton.mpr h1))))
              · exact hx (List.mem_cons_of_mem _ (List.mem_append.mpr (Or.inl h2)))
            · rw [decide_eq_true_eq]
              intro hmem
              rcases List.mem_cons.mp hmem with h1 | h2
              · exact hne h1
              · exact hnex h2
            · rw [decide_eq_false_iff_not]
              exact fun hq => hq (List.mem_cons_self _ _)
          exact ih _ _ _ _ (Nat.lt_of_lt_of_le hstrict (Nat.lt_succ_iff.mp hlt))

/-- The fuel branch of the chain runner is unreachable at the fuel actually
used by run_function. -/
theorem run_function_no_fuelOut [LinearOrderedRing α] (behavior : String → InvokeResult)
    (now : α) (c : Caller α) (bucket : List String) (fid : String)
    (excluded : List String) :
    (run_function behavior now c bucket fid excluded).2.2 ≠ .fuelOut := by
  apply run_function_fuel_enough
  exact Nat.lt_succ_of_le (List.length_filter_le _ _)

/-- With every id of a bucket registered, selection cannot raise KeyError. -/
theorem select_function_no_keyError {c : Caller α} {excluded : List String} (e : String) :
    ∀ bucket : List String, (∀ fid ∈ bucket, (findModel c fid).isSome = true) →
      select_function c excluded bucket ≠ .keyError e := by
  intro bucket
  induction bucket with
  | nil =>
    intro _
    simp [select_function]
  | cons fid rest ih =>
    intro hreg h
    simp only [select_function] at h
    split at h
    · exact ih (fun f hf => hreg f (List.mem_cons_of_mem _ hf)) h
    · split at h
      · rename_i hfm
        have hs := hreg fid (List.mem_cons_self _ _)
        rw [hfm] at hs
        exact Bool.noConfusion hs
      · split at h
        · exact SelectResult.noConfusion h
        · exact ih (fun f hf => hreg f (List.mem_cons_of_mem _ hf)) h

/-- With every id of every bucket registered, the selection loop of
call_functions cannot abort with a KeyError. -/
theorem select_all_ok {c : Caller α} :
    ∀ buckets : List (List String),
      (∀ b ∈ buckets, ∀ fid ∈ b, (findModel c fid).isSome = true) →
      ∃ l, select_all c buckets = .ok l := by
  intro buckets
  induction buckets with
  | nil =>
    intro _
    exact ⟨[], rfl⟩
  | cons b rest ih =>
    intro hreg
    cases hsel : select_function c ([] : List String) b with
    | keyError f =>
      exact absurd hsel (select_function_no_keyError f b (hreg b (List.mem_cons_self _ _)))
    | exhausted =>
      obtain ⟨l, hl⟩ := ih (fun b2 hb2 => hreg b2 (List.mem_cons_of_mem _ hb2))
      refine ⟨l, ?_⟩
      simp only [select_all, hsel, hl]
    | selected m =>
      obtain ⟨l, hl⟩ := ih (fun b2 hb2 => hreg b2 (List.mem_cons_of_mem _ hb2))
      refine ⟨(m.id, b) :: l, ?_⟩
      simp only [select_all, hsel, hl]

/-- A chain can only end cancelled when some invocation was cancelled. -/
theorem run_function_fuel_no_cancel [LinearOrderedRing α] {behavior : String → InvokeResult}
    (hb : ∀ fid, behavior fid ≠ .cancelled) (now : α) :
    ∀ (fuel : Nat) (c : Caller α) (bucket : List String) (fid : String)
      (excluded : List String),
      (run_function_fuel behavior now fuel c bucket fid excluded).2.2 ≠ .cancelled := by
  intro fuel
  induction fuel with
  | zero =>
    intro c bucket fid excluded
    simp [run_function_fuel]
  | succ n ih =>
    intro c bucket fid excluded
    cases hfm : findModel c fid with
    | none => simp [run_function_fuel, hfm]
    | some m =>
      cases hbeq : behavior fid with
      | cancelled => exact absurd hbeq (hb fid)
      | ok v => simp [run_function_fuel, hfm, hbeq]
      | err =>
        cases hsel : select_function (updateModel c (handle_failure m now))
            (excluded ++ [fid]) bucket with
        | keyError f => simp [run_function_fuel, hfm, hbeq, hsel]
        | exhausted => simp [run_function_fuel, hfm, hbeq, hsel]
        | selected m2 =>
          simp only [run_function_fuel, hfm, hbeq, hsel]
          exact ih _ _ _ _

/-- No chain result is cancelled when no invocation behaves cancelled. -/
theorem run_chains_no_cancel [LinearOrderedRing α] {behavior : String → InvokeResult}
    (hb : ∀ fid, behavior fid ≠ .cancelled) (now : α) :
    ∀ (selected : List (String × List String)) (c : Caller α)
      (p : List String × ChainOutcome),
      p ∈ (run_chains behavior now c selected).2 → p.2 ≠ .cancelled := by
  intro selected
  induction selected with
  | nil =>
    intro c p hp
    simp [run_chains] at hp
  | cons sb rest ih =>
    intro c p hp
    simp only [run_chains] at hp
    rcases List.mem_cons.mp hp with h1 | h2
    · rw [h1]
      exact run_function_fuel_no_cancel hb now _ _ _ _ _
    · exact ih _ _ h2

/-- The dispatcher loop yields a success or the final no-function-succeeded
error whenever no inspected task was cancelled. -/
theorem dispatch_ok_or_noFunc {outcomes : List ChainOutcome}
    (h : ∀ o ∈ outcomes, o ≠ ChainOutcome.cancelled) :
    ∀ order : List Nat, (∃ v, dispatch outcomes order = .ok v) ∨
      dispatch outcomes order = .noFunctionSucceeded := by
  intro order
  induction order with
  | nil => exact Or.inr rfl
  | cons i rest ih =>
    cases hg : outcomes[i]? with
    | none => simpa [dispatch, hg] using ih
    | some o =>
      cases o with
      | ok v => exact Or.inl ⟨v, by simp [dispatch, hg]⟩
      | cancelled =>
        have hmem : ChainOutcome.cancelled ∈ outcomes := by
          obtain ⟨hn, he⟩ := List.getElem?_eq_some.mp hg
          exact he ▸ List.getElem_mem hn
        exact absurd rfl (h _ hmem)
      | exhausted => simpa [dispatch, hg] using ih
      | keyErr f => simpa [dispatch, hg] using ih
      | fuelOut => simpa [dispatch, hg] using ih

/-- Below the threshold, the failure-resolution pass leaves a model
unchanged. -/
theorem resolve_model_closed [LinearOrderedRing α] {maxF : Nat} (now : α)
    {m : FunctionModel α} (h : m.failures < maxF) :
    resolve_model maxF now m = m := by
  unfold resolve_model
  rw [if_neg (Nat.not_le.mpr h)]

/-- A bucket all of whose ids are registered but still over the threshold
selects nobody. -/
theorem select_function_all_ineligible {c : Caller α} {excluded : List String} :
    ∀ bucket : List String,
      (∀ fid ∈ bucket, ∃ m, findModel c fid = some m ∧ c.max_failures ≤ m.failures) →
      select_function c excluded bucket = .exhausted := by
  intro bucket
  induction bucket with
  | nil =>
    intro _
    rfl
  | cons fid rest ih =>
    intro h
    obtain ⟨m, hm, hge⟩ := h fid (List.mem_cons_self _ _)
    simp only [select_function, hm]
    by_cases hex : fid ∈ excluded
    · rw [if_pos hex]
      exact ih (fun f hf => h f (List.mem_cons_of_mem _ hf))
    · rw [if_neg hex, if_neg (Nat.not_lt.mpr hge)]
      exact ih (fun f hf => h f (List.mem_cons_of_mem _ hf))

/-- If every bucket selects nobody, the selection loop returns the empty
selection (each bucket is silently dropped). -/
theorem select_all_exhausted {c : Caller α} :
    ∀ buckets : List (List String),
      (∀ b ∈ buckets, select_function c ([] : List String) b = SelectResult.exhausted) →
      select_all c buckets = .ok [] := by
  intro buckets
  induction buckets with
  | nil =>
    intro _
    rfl
  | cons b rest ih =>
    intro h
    simp only [select_all, h b (List.mem_cons_self _ _)]
    exact ih (fun b2 hb2 => h b2 (List.mem_cons_of_mem _ hb2))

/-- With no finished task at all, the dispatcher raises the final error for
every completion order. -/
theorem dispatch_nil : ∀ order : List Nat,
    dispatch [] order = .noFunctionSucceeded := by
  intro order
  induction order with
  | nil => rfl
  | cons i rest ih => simpa [dispatch] using ih

/-- One call on the bucket [A, B] with a healthy registered A whose
invocation succeeds: the chain attempts A first and only A, A's registry
entry is reset, and the threshold is untouched. -/
theorem call_AB_first [LinearOrderedRing α] {behavior : String → InvokeResult} {now : α}
    {order : List Nat} {c : Caller α} {mA : FunctionModel α} {v : String}
    (hA : findModel c "A" = some mA) (hAh : mA.failures < c.max_failures)
    (hbA : behavior "A" = .ok v) :
    (call_functions behavior now order c [["A", "B"]]).traces = [["A"]] ∧
    findModel (call_functions behavior now order c [["A", "B"]]).state "A" =
      some { mA with failures := 0, backoff := 1 } ∧
    (call_functions behavior now order c [["A", "B"]]).state.max_failures =
      c.max_failures := by
  have hidA : mA.id = "A" := findModel_id hA
  have hA1 : findModel (resolve_failures now c) "A" = some mA := by
    rw [findModel_resolve, hA]
    show some (resolve_model c.max_failures now mA) = some mA
    rw [resolve_model_closed now hAh]
  have hsel : select_function (resolve_failures now c) ([] : List String) ["A", "B"] =
      .selected mA := by
    have hAh1 : mA.failures < (resolve_failures now c).max_failures := hAh
    simp only [select_function, hA1]
    rw [if_neg (List.not_mem_nil "A"), if_pos hAh1]
  have hsa : select_all (resolve_failures now c) [["A", "B"]] =
      .ok [("A", ["A", "B"])] := by
    simp only [select_all, hsel, hidA]
  have hrun : run_function behavior now (resolve_failures now c) ["A", "B"] "A" [] =
      (updateModel (resolve_failures now c) { mA with failures := 0, backoff := 1 },
        ["A"], .ok v) := by
    simp only [run_function, run_function_fuel, hA1, hbA]
  have hchain : run_chains behavior now (resolve_failures now c) [("A", ["A", "B"])] =
      (updateModel (resolve_failures now c) { mA with failures := 0, backoff := 1 },
        [(["A"], ChainOutcome.ok v)]) := by
    simp only [run_chains, hrun]
  have hfinal : call_functions behavior now order c [["A", "B"]] =
      ⟨updateModel (resolve_failures now c) { mA with failures := 0, backoff := 1 },
        [["A"]], [ChainOutcome.ok v], dispatch [ChainOutcome.ok v] order⟩ := by
    simp only [call_functions, hsa, hchain, List.map_cons, List.map_nil]
  rw [hfinal]
  refine ⟨rfl, ?_, rfl⟩
  rw [findModel_updateModel, hA1]
  simp

/-- Claim C1, counterexample: under the default threshold max_failures = 2 a
fresh provider has 0 consecutive failures, strictly below the threshold, yet
its very first recorded failure already doubles the backoff interval from
the base 1.0 to 2.0 — contradicting that the interval never doubles on a
failure recorded while the count is still below the threshold. -/
theorem C1_counterexample :
    (freshModel "A" : FunctionModel ℤ).failures < 2 ∧
    (freshModel "A" : FunctionModel ℤ).backoff = 1 ∧
    (handle_failure (freshModel "A" : FunctionModel ℤ) 0).backoff = 2 := by
  decide

/-- Claim C1, amended: the backoff interval starts at the base value 1.0
(the registration default) and _handle_failure doubles it on every recorded
failure, regardless of how the consecutive-failure count compares to
max_failures. -/
theorem C1_theorem [LinearOrderedRing α] :
    (∀ fid : String, (freshModel fid : FunctionModel α).backoff = 1) ∧
    (∀ (m : FunctionModel α) (now : α),
      (handle_failure m now).backoff = m.backoff * 2) := by
  constructor
  · intro fid
    rfl
  · intro m now
    rfl

/-- Claim C3, counterexample: provider C is Open (2 failures at threshold 2)
and its backoff window has elapsed at time 5; the failure-resolution pass —
run by call_functions and get_ids_on_timeout, outside the chain's
failure/success handlers — changes its consecutive-failure count from 2 to
1, so the count is not left unchanged by a purely time-based transition back
to eligibility. -/
theorem C3_counterexample :
    resolve_model 2 (5:ℤ) ⟨"C", 2, some 0, 1⟩ = ⟨"C", 1, some 0, 1⟩ ∧
    (resolve_failures (5:ℤ) openC).function_models = [⟨"C", 1, some 0, 1⟩] := by
  decide

/-- Claim C3, amended: when a provider at or over the threshold has a
recorded failure time and its backoff window has strictly elapsed, the
failure-resolution pass sets its consecutive-failure count to
max_failures - 1, leaving the backoff interval and last-failure time
unchanged; the full reset still happens only on a successful invocation. -/
theorem C3_theorem [LinearOrderedRing α] (maxF : Nat) (now t : α) (m : FunctionModel α)
    (hl : m.last_failure_time = some t) (hf : maxF ≤ m.failures)
    (hel : m.backoff < now - t) :
    resolve_model maxF now m = { m with failures := maxF - 1 } := by
  unfold resolve_model
  simp only [hl, if_pos hf, if_pos hel]

/-- Witness for the amended claim C3 at a concrete Open provider. -/
theorem C3_witness :
    resolve_model 3 (10:ℤ) ⟨"D", 5, some 2, 4⟩ = ⟨"D", 2, some 2, 4⟩ :=
  C3_theorem 3 10 2 ⟨"D", 5, some 2, 4⟩ rfl (by decide) (by decide)

/-- Claim C4, counterexample: provider A reached the threshold and its
backoff window has elapsed at time 5 (half-open-eligible), yet
remaining-backoff introspection returns -4 rather than 0 — the value is
neither clamped to be non-negative nor zeroed for the eligible state. -/
theorem C4_counterexample :
    get_function_remaining_timeout_in_seconds openA (5:ℤ) "A" = some (-4) ∧
    ((-4:ℤ) < 0) := by
  decide

/-- Claim C4, amended: for a registered provider with a recorded failure
time, remaining-backoff introspection returns 0 exactly when the provider is
Closed (failures below max_failures), and otherwise the raw difference
backoff - (now - last_failure_time), with no clamping — once the window has
elapsed the returned value is negative. -/
theorem C4_theorem [LinearOrderedRing α] (c : Caller α) (now : α) (fid : String)
    (m : FunctionModel α) (t : α) (hm : findModel c fid = some m)
    (hl : m.last_failure_time = some t) :
    get_function_remaining_timeout_in_seconds c now fid =
      some (if c.max_failures ≤ m.failures then m.backoff - (now - t) else 0) := by
  simp only [get_function_remaining_timeout_in_seconds, hm, hl]
  by_cases hf : c.max_failures ≤ m.failures
  · rw [if_pos hf, if_pos hf]
  · rw [if_neg hf, if_neg hf]

/-- Witness for the amended claim C4 at a concrete Open provider. -/
theorem C4_witness :
    get_function_remaining_timeout_in_seconds
        (⟨2, [⟨"E", 3, some 1, 8⟩]⟩ : Caller ℤ) 4 "E" =
      some (if 2 ≤ 3 then (8:ℤ) - (4 - 1) else 0) :=
  C4_theorem (⟨2, [⟨"E", 3, some 1, 8⟩]⟩ : Caller ℤ) 4 "E" ⟨"E", 3, some 1, 8⟩ 1
    (by decide) rfl

/-- Claim C6: immediately after a successful invocation the provider's
failure state is fully reset in the registry (failures 0, backoff at the
base 1.0), and every recorded failure increments the consecutive-failure
count by exactly 1. -/
theorem C6_theorem [LinearOrderedRing α] (behavior : String → InvokeResult) (now : α)
    (c : Caller α) (bucket : List String) (fid : String) (excluded : List String)
    (m : FunctionModel α) (v : String)
    (hm : findModel c fid = some m) (hb : behavior fid = .ok v) :
    findModel (run_function behavior now c bucket fid excluded).1 fid =
      some { m with failures := 0, backoff := 1 } ∧
    (∀ (m2 : FunctionModel α) (t : α),
      (handle_failure m2 t).failures = m2.failures + 1) := by
  constructor
  · simp only [run_function, run_function_fuel, hm, hb]
    rw [findModel_updateModel, hm]
    simp
  · intro m2 t
    rfl

/-- Witness for claim C6: a success resets a provider that had one failure
and a doubled backoff. -/
theorem C6_witness :
    findModel (run_function (fun _ => InvokeResult.ok "r") (7:ℤ)
        (⟨2, [⟨"F", 1, some 3, 4⟩]⟩ : Caller ℤ) ["F"] "F" []).1 "F" =
      some ⟨"F", 0, some 3, 1⟩ ∧
    (∀ (m2 : FunctionModel ℤ) (t : ℤ),
      (handle_failure m2 t).failures = m2.failures + 1) :=
  C6_theorem (fun _ => InvokeResult.ok "r") 7 (⟨2, [⟨"F", 1, some 3, 4⟩]⟩ : Caller ℤ)
    ["F"] "F" [] ⟨"F", 1, some 3, 4⟩ "r" (by decide) rfl

/-- Claim C7: with the single bucket [A, B], both providers fresh and both
always failing, call_functions raises the no-function-succeeded error, both
providers end with exactly one consecutive failure, and the chain invoked
each of them exactly once. -/
theorem C7_theorem :
    (call_functions (fun _ => .err) (0:ℤ) [0] freshAB [["A", "B"]]).result =
      .noFunctionSucceeded ∧
    findModel (call_functions (fun _ => .err) (0:ℤ) [0] freshAB [["A", "B"]]).state "A" =
      some ⟨"A", 1, some 0, 2⟩ ∧
    findModel (call_functions (fun _ => .err) (0:ℤ) [0] freshAB [["A", "B"]]).state "B" =
      some ⟨"B", 1, some 0, 2⟩ ∧
    (call_functions (fun _ => .err) (0:ℤ) [0] freshAB [["A", "B"]]).traces =
      [["A", "B"]] := by
  decide

/-- Claim C8: two buckets, the first holding the immediately failing
provider and the second the eventually succeeding one; the failing chain
finishes first (completion order [0, 1]) and ends exhausted, yet the call
returns the slow provider's output — an exhausted bucket is dropped without
ending the race or failing the call. -/
theorem C8_theorem :
    (call_functions raceBehavior (0:ℤ) [0, 1] failRace
        [["fail"], ["slow_success"]]).result = .ok "slow result" ∧
    (call_functions raceBehavior (0:ℤ) [0, 1] failRace
        [["fail"], ["slow_success"]]).outcomes = [.exhausted, .ok "slow result"] := by
  decide

/-- Claim C9: a chain whose current invocation is cancelled aborts at once:
the registry is returned completely unchanged (in particular the cancelled
provider's failure count, last-failure time and backoff interval), no
further provider is attempted after the one in flight, and the chain
reports the cancellation rather than a failure. -/
theorem C9_theorem [LinearOrderedRing α] (behavior : String → InvokeResult) (now : α)
    (c : Caller α) (bucket : List String) (fid : String) (excluded : List String)
    (m : FunctionModel α) (hm : findModel c fid = some m)
    (hb : behavior fid = .cancelled) :
    run_function behavior now c bucket fid excluded = (c, [fid], .cancelled) := by
  simp only [run_function, run_function_fuel, hm, hb]

/-- Witness for claim C9: cancellation mid-invocation of provider G leaves
its registry entry untouched and attempts nobody else in the bucket. -/
theorem C9_witness :
    run_function (fun _ => InvokeResult.cancelled) (9:ℤ)
        (⟨2, [⟨"G", 1, some 2, 4⟩]⟩ : Caller ℤ) ["G", "H"] "G" [] =
      (⟨2, [⟨"G", 1, some 2, 4⟩]⟩, ["G"], .cancelled) :=
  C9_theorem (fun _ => InvokeResult.cancelled) 9 (⟨2, [⟨"G", 1, some 2, 4⟩]⟩ : Caller ℤ)
    ["G", "H"] "G" [] ⟨"G", 1, some 2, 4⟩ (by decide) rfl

/-- Claim C2, counterexample: there is no persisted rotation cursor. For the
bucket [A, B] with both providers fresh and healthy and every invocation
succeeding, the first call attempts A first, and the second call again
attempts A first — not B, as the claimed round-robin alternation requires. -/
theorem C2_counterexample :
    (call_functions (fun _ => .ok "v") (0:ℤ) [0] freshAB [["A", "B"]]).traces =
      [["A"]] ∧
    (call_functions (fun _ => .ok "v") (0:ℤ) [0]
        (call_functions (fun _ => .ok "v") (0:ℤ) [0] freshAB [["A", "B"]]).state
        [["A", "B"]]).traces = [["A"]] ∧
    ("A" : String) ≠ "B" := by
  decide

/-- Claim C2, amended: selection keeps no cursor — _select_function always
scans the bucket from its first entry. For the bucket [A, B] with A healthy
and succeeding, every one of two successive calls to call_functions attempts
A first; the rotation claimed by the spec does not happen. -/
theorem C2_theorem [LinearOrderedRing α] (behavior : String → InvokeResult)
    (now1 now2 : α) (order1 order2 : List Nat) (c : Caller α)
    (mA : FunctionModel α) (v : String)
    (hA : findModel c "A" = some mA) (hAh : mA.failures < c.max_failures)
    (hpos : 0 < c.max_failures) (hbA : behavior "A" = .ok v) :
    (call_functions behavior now1 order1 c [["A", "B"]]).traces = [["A"]] ∧
    (call_functions behavior now2 order2
        (call_functions behavior now1 order1 c [["A", "B"]]).state
        [["A", "B"]]).traces = [["A"]] := by
  obtain ⟨h1, h2, h3⟩ := call_AB_first hA hAh hbA
  refine ⟨h1, ?_⟩
  have hAh2 : ({ mA with failures := 0, backoff := 1 } : FunctionModel α).failures <
      (call_functions behavior now1 order1 c [["A", "B"]]).state.max_failures := by
    rw [h3]
    exact hpos
  exact (call_AB_first h2 hAh2 hbA).1

/-- Witness for the amended claim C2 on the fresh two-provider registry. -/
theorem C2_witness :
    (call_functions (fun _ => InvokeResult.ok "v") (0:ℤ) [0] freshAB
        [["A", "B"]]).traces = [["A"]] ∧
    (call_functions (fun _ => InvokeResult.ok "v") (0:ℤ) [0]
        (call_functions (fun _ => InvokeResult.ok "v") (0:ℤ) [0] freshAB
          [["A", "B"]]).state [["A", "B"]]).traces = [["A"]] :=
  C2_theorem (fun _ => InvokeResult.ok "v") 0 0 [0] [0] freshAB (freshModel "A") "v"
    (by decide) (by decide) (by decide) rfl

/-- Claim C5, counterexample: a bucket naming an unregistered id makes
call_functions raise a KeyError from the selection loop — an error the
external caller observes that is neither a winning result nor the
no-function-succeeded error. -/
theorem C5_counterexample :
    (call_functions (fun _ => .err) (0:ℤ) [] (⟨2, []⟩ : Caller ℤ) [["X"]]).result =
      .keyError "X" := by
  decide

/-- Claim C5, amended: provided every id appearing in the buckets is
registered and no invocation is cancelled, call_functions either returns a
winning provider's result or fails with the no-function-succeeded error, for
every completion order; exceptions inside the chains (bucket exhaustion, a
KeyError during in-chain selection) never escape the dispatcher. -/
theorem C5_theorem [LinearOrderedRing α] (behavior : String → InvokeResult) (now : α)
    (order : List Nat) (c : Caller α) (buckets : List (List String))
    (hreg : ∀ b ∈ buckets, ∀ fid ∈ b, (findModel c fid).isSome = true)
    (hnc : ∀ fid, behavior fid ≠ .cancelled) :
    (∃ v, (call_functions behavior now order c buckets).result = .ok v) ∨
    (call_functions behavior now order c buckets).result = .noFunctionSucceeded := by
  have hreg1 : ∀ b ∈ buckets, ∀ fid ∈ b,
      (findModel (resolve_failures now c) fid).isSome = true := by
    intro b hb fid hf
    have hs := hreg b hb fid hf
    rw [findModel_resolve]
    cases hx : findModel c fid with
    | none =>
      rw [hx] at hs
      exact Bool.noConfusion hs
    | some m => rfl
  obtain ⟨sel, hsel⟩ := select_all_ok buckets hreg1
  simp only [call_functions, hsel]
  refine dispatch_ok_or_noFunc ?_ order
  intro o ho
  obtain ⟨p, hp, hpo⟩ := List.mem_map.mp ho
  rw [← hpo]
  exact run_chains_no_cancel hnc now sel _ p hp

/-- Witness for the amended claim C5 on a one-provider registry whose single
invocation succeeds. -/
theorem C5_witness :
    (∃ v, (call_functions (fun _ => InvokeResult.ok "w") (0:ℤ) [0]
        (⟨2, [freshModel "W"]⟩ : Caller ℤ) [["W"]]).result = .ok v) ∨
    (call_functions (fun _ => InvokeResult.ok "w") (0:ℤ) [0]
        (⟨2, [freshModel "W"]⟩ : Caller ℤ) [["W"]]).result = .noFunctionSucceeded :=
  C5_theorem (fun _ => InvokeResult.ok "w") 0 [0] (⟨2, [freshModel "W"]⟩ : Caller ℤ)
    [["W"]] (by decide) (fun fid h => InvokeResult.noConfusion h)

/-- Claim C10, counterexample: with empty buckets the call does raise the
no-function-succeeded error without invoking anyone, but it still mutates a
provider's failure count: the Open provider C with elapsed backoff window is
set from 2 failures back to 1 by the failure-resolution pass that
call_functions always runs first. -/
theorem C10_counterexample :
    (call_functions (fun _ => .err) (5:ℤ) [] openC []).result =
      .noFunctionSucceeded ∧
    (call_functions (fun _ => .err) (5:ℤ) [] openC []).traces = [] ∧
    findModel openC "C" = some ⟨"C", 2, some 0, 1⟩ ∧
    findModel (call_functions (fun _ => .err) (5:ℤ) [] openC []).state "C" =
      some ⟨"C", 1, some 0, 1⟩ := by
  decide

/-- Claim C10, amended: if the buckets list is empty, or every id of every
bucket is registered but still at or over the threshold after failure
resolution, call_functions raises the no-function-succeeded error without
invoking any provider, and the registry it leaves behind is exactly the
output of the failure-resolution pass — that pass is the only mutation, and
it can lower an Open provider's count to max_failures - 1 once its backoff
window has elapsed (as the counterexample shows). -/
theorem C10_theorem [LinearOrderedRing α] (behavior : String → InvokeResult) (now : α)
    (order : List Nat) (c : Caller α) (buckets : List (List String))
    (h : buckets = [] ∨ ∀ b ∈ buckets, ∀ fid ∈ b,
      ∃ m, findModel (resolve_failures now c) fid = some m ∧
        c.max_failures ≤ m.failures) :
    (call_functions behavior now order c buckets).result = .noFunctionSucceeded ∧
    (call_functions behavior now order c buckets).traces = [] ∧
    (call_functions behavior now order c buckets).state = resolve_failures now c := by
  have hsel : select_all (resolve_failures now c) buckets = .ok [] := by
    rcases h with h0 | hall
    · rw [h0]
      rfl
    · apply select_all_exhausted
      intro b hb
      apply select_function_all_ineligible
      intro fid hf
      exact hall b hb fid hf
  simp only [call_functions, hsel, run_chains, List.map_nil]
  refine ⟨dispatch_nil order, ?_, ?_⟩ <;> trivial

/-- Witness for the amended claim C10: a single Open provider H whose window
has not yet elapsed; the call raises the error, attempts nobody, and leaves
the registry exactly as failure resolution does. -/
theorem C10_witness :
    (call_functions (fun _ => InvokeResult.err) (0:ℤ) [0]
        (⟨1, [⟨"H", 1, some 0, 3⟩]⟩ : Caller ℤ) [["H"]]).result =
      .noFunctionSucceeded ∧
    (call_functions (fun _ => InvokeResult.err) (0:ℤ) [0]
        (⟨1, [⟨"H", 1, some 0, 3⟩]⟩ : Caller ℤ) [["H"]]).traces = [] ∧
    (call_functions (fun _ => InvokeResult.err) (0:ℤ) [0]
        (⟨1, [⟨"H", 1, some 0, 3⟩]⟩ : Caller ℤ) [["H"]]).state =
      resolve_failures 0 (⟨1, [⟨"H", 1, some 0, 3⟩]⟩ : Caller ℤ) :=
  C10_theorem (fun _ => InvokeResult.err) 0 [0] (⟨1, [⟨"H", 1, some 0, 3⟩]⟩ : Caller ℤ)
    [["H"]] (Or.inr (by
      intro b hb fid hf
      rw [List.mem_singleton] at hb
      subst hb
      rw [List.mem_singleton] at hf
      subst hf
      exact ⟨⟨"H", 1, some 0, 3⟩, by decide, by decide⟩))

end Frace
